import Mathlib

/-!
Shallow embedding of the WebScout licensed-content harvester
(the `webscout` module of the appscroll-backend repository).

Strings model JavaScript strings; a missing or undefined upstream field is
modelled as the empty string (the code only ever tests those fields for
truthiness, and `undefined` and the empty string are both falsy there).
HTTP transport is abstracted away: each source adapter is embedded as the
pure mapping from its parsed upstream payload to candidates, and the
orchestrator receives the settled outcome (fulfilled candidate list or
rejection) of each selected adapter, exactly as `Promise.allSettled`
delivers them in `harvestCandidates`.
-/

namespace WebScout

/-- License enum (`License` object in the source); values are the literal
strings the code stores in `lic`. -/
def License.PD : String := "PD"

def License.CC0 : String := "CC0"

def License.CCBY : String := "CCBY"

def License.CCBYSA : String := "CCBYSA"

def License.NASA_PD : String := "NASA_PD"

def License.UNKNOWN : String := "UNKNOWN"

def License.NOT_ALLOWED : String := "NOT_ALLOWED"

/-- Licenses that allow image rendering (`RENDER_ALLOWED_LICENSES`). -/
def RENDER_ALLOWED_LICENSES : List String :=
  [License.PD, License.CC0, License.CCBY, License.CCBYSA, License.NASA_PD]

/-- Licenses that require attribution display (`ATTRIBUTION_REQUIRED`). -/
def ATTRIBUTION_REQUIRED : List String :=
  [License.CCBY, License.CCBYSA, License.NASA_PD]

/-- The common candidate shape (`LicensedCandidate` typedef in the source). -/
structure LicensedCandidate where
  id : String
  u : String
  k : String
  ttl : String
  desc : String
  src : String
  lic : String
  att : String
  link : String
  safe : Bool
deriving DecidableEq

/-- JavaScript `toLowerCase` (character-wise lowering, as the code only
feeds it ASCII rights strings and titles). -/
def jsToLower (s : String) : String :=
  ⟨s.toList.map Char.toLower⟩

/-- JavaScript `trim`: strip whitespace from both ends. -/
def jsTrim (s : String) : String :=
  ⟨((s.toList.dropWhile Char.isWhitespace).reverse.dropWhile Char.isWhitespace).reverse⟩

/-- JavaScript `String.prototype.includes`: substring containment. -/
def includesSubstr (s pat : String) : Bool :=
  (List.range (s.toList.length + 1)).any fun i =>
    pat.toList == ((s.toList.drop i).take pat.toList.length)

/-- `truncate(str, maxLen)` helper from the source: trim, then cut to
`maxLen - 1` characters plus a single ellipsis character when too long. -/
def truncate (str : String) (maxLen : Nat) : String :=
  if str == "" then ""
  else
    let s := jsTrim str
    if s.length ≤ maxLen then s
    else (⟨s.toList.take (maxLen - 1)⟩ : String).push '…'

/-- The blocklist (`unsafeTerms` in `basicSafetyCheck`). -/
def blockedTerms : List String :=
  ["nsfw", "nude", "naked", "porn", "xxx", "sexual", "erotic",
   "gore", "graphic violence", "torture", "beheading",
   "nazi", "white supremac", "kkk", "hate group"]

/-- `basicSafetyCheck(text)`: empty text passes; otherwise lowercase and
reject when any blocklisted term occurs as a substring. -/
def basicSafetyCheck (text : String) : Bool :=
  if text == "" then true
  else
    let lower := jsToLower text
    blockedTerms.all fun term => !(includesSubstr lower term)

/-- `parseWikimediaLicense(licenseString)`: classifier for Wikimedia
Commons `LicenseShortName` values. -/
def parseWikimediaLicense (licenseString : String) : String :=
  if licenseString == "" then License.UNKNOWN
  else
    let lower := jsToLower licenseString
    if includesSubstr lower "cc0" || includesSubstr lower "public domain" || lower == "pd" then
      License.CC0
    else if includesSubstr lower "cc-by-sa" || includesSubstr lower "cc by-sa" then
      License.CCBYSA
    else if includesSubstr lower "cc-by" || includesSubstr lower "cc by" then
      License.CCBY
    else License.UNKNOWN

/-- `parseEuropeanaRights(rightsUrl)`: classifier for Europeana
rights-statement URLs. -/
def parseEuropeanaRights (rightsUrl : String) : String :=
  if rightsUrl == "" then License.UNKNOWN
  else
    let lower := jsToLower rightsUrl
    if includesSubstr lower "publicdomain" || includesSubstr lower "cc0" ||
        includesSubstr lower "/mark/" then
      License.CC0
    else if includesSubstr lower "by-sa" then License.CCBYSA
    else if includesSubstr lower "/by/" then License.CCBY
    else if includesSubstr lower "in-copyright" || includesSubstr lower "orphan-work" then
      License.NOT_ALLOWED
    else License.UNKNOWN

/-- `rightsToString(license)`: display string for each license. -/
def rightsToString (license : String) : String :=
  if license == License.CCBY then "CC BY 4.0"
  else if license == License.CCBYSA then "CC BY-SA 4.0"
  else if license == License.CC0 then "CC0 Public Domain"
  else if license == License.PD then "Public Domain"
  else if license == License.NASA_PD then "NASA/Public Domain"
  else ""

/-- One iteration of the Fisher-Yates loop body in `shuffle`: swap the
entries at positions `i` and `j` (both always in bounds in the source; out
of bounds leaves the list unchanged). -/
def listSwap (l : List α) (i j : Nat) : List α :=
  match l[i]?, l[j]? with
  | some x, some y => (l.set i y).set j x
  | _, _ => l

/-- The `for (let i = length - 1; i > 0; i--)` loop of `shuffle`.  `rand i`
is the value drawn at loop index `i`; `rand i % (i + 1)` models
`Math.floor(Math.random() * (i + 1))`, which ranges over `0..i`. -/
def shuffleGo (rand : Nat → Nat) : Nat → List α → List α
  | 0, l => l
  | i + 1, l => shuffleGo rand i (listSwap l (i + 1) (rand (i + 1) % (i + 2)))

/-- `shuffle(array)` from the source, with the stream of random draws made
an explicit parameter. -/
def shuffle (rand : Nat → Nat) (array : List α) : List α :=
  shuffleGo rand (array.length - 1) array

/-- Helper for `stripTags`: the characters after the first `>` of an open
tag, or `none` when the tag never closes. -/
def dropTag : List Char → Option (List Char)
  | [] => none
  | c :: rest => if c == '>' then some rest else dropTag rest

/-- JavaScript `.replace(/<[^>]*>/g, '')`: remove every complete HTML tag;
a `<` that is never closed stays literal.  Fuel-indexed so that the
recursion is structural; each step consumes at least one character, so any
fuel of at least the list length computes the full result. -/
def stripTags : Nat → List Char → List Char
  | _, [] => []
  | 0, l => l
  | fuel + 1, c :: rest =>
    if c == '<' then
      match dropTag rest with
      | some rest2 => stripTags fuel rest2
      | none => c :: stripTags fuel rest
    else c :: stripTags fuel rest

/-- String wrapper for `stripTags`; the fuel (one per scanned character)
always suffices. -/
def stripTagsStr (s : String) : String :=
  ⟨stripTags s.toList.length s.toList⟩

/-- Index of the first occurrence of `pl` in `sl`. -/
def firstIndexOf (sl pl : List Char) : Option Nat :=
  (List.range (sl.length + 1)).find? fun i => pl == ((sl.drop i).take pl.length)

/-- JavaScript `String.prototype.replace` with a plain-string pattern:
replace only the first occurrence. -/
def replaceFirst (s pat repl : String) : String :=
  match firstIndexOf s.toList pat.toList with
  | some i => ⟨(s.toList.take i) ++ repl.toList ++ (s.toList.drop (i + pat.toList.length))⟩
  | none => s

/-- Scanner for a global (`/g`) plain-pattern replace: at each position,
replace a non-empty match of `pl` by `rl` and continue after it.
Fuel-indexed so that the recursion is structural; each step consumes at
least one character, so any fuel of at least the list length computes the
full result. -/
def replaceAllGo (pl rl : List Char) : Nat → List Char → List Char
  | _, [] => []
  | 0, l => l
  | fuel + 1, c :: rest =>
    if pl != [] && pl == (c :: rest).take pl.length then
      rl ++ replaceAllGo pl rl fuel ((c :: rest).drop pl.length)
    else c :: replaceAllGo pl rl fuel rest

/-- JavaScript `.replace(/pat/g, repl)` for a non-empty plain pattern:
replace every occurrence, scanning left to right. -/
def jsReplaceAll (s pat repl : String) : String :=
  ⟨replaceAllGo pat.toList repl.toList s.toList.length s.toList⟩

/-- JavaScript `.split(sep)[0]`: the prefix before the first separator. -/
def splitFirst (s : String) (sep : Char) : String :=
  ⟨s.toList.takeWhile fun c => c != sep⟩

/-- JavaScript `.replace(/\.[^.]+$/, '')`: drop a trailing dot-extension
(a final dot followed by one or more non-dot characters). -/
def removeExt (s : String) : String :=
  let l := s.toList
  match (l.reverse).findIdx? (fun c => c == '.') with
  | none => s
  | some 0 => s
  | some (k + 1) => ⟨l.take (l.length - (k + 2))⟩

/-- Characters `encodeURIComponent` leaves unescaped. -/
def uriUnreservedChar (c : Char) : Bool :=
  c.isAlphanum || c == '-' || c == '_' || c == '.' || c == '!' || c == '~' ||
    c == '*' || c.toNat == 39 || c == '(' || c == ')'

/-- Upper-case hexadecimal digit. -/
def hexDigitUpper (n : Nat) : Char :=
  if n < 10 then Char.ofNat (48 + n) else Char.ofNat (55 + n)

/-- Percent-encoding of one UTF-8 byte. -/
def percentEncodeByte (b : UInt8) : String :=
  "%" ++ String.singleton (hexDigitUpper (b.toNat / 16)) ++
    String.singleton (hexDigitUpper (b.toNat % 16))

/-- JavaScript `encodeURIComponent`. -/
def encodeURIComponent (s : String) : String :=
  s.toList.foldl
    (fun acc c =>
      if uriUnreservedChar c then acc.push c
      else acc ++ String.join (((String.singleton c).toUTF8.toList).map percentEncodeByte))
    ""

/-- The per-source loops that stop pushing once `limit` candidates are
collected (`if (candidates.length >= limit) break`): keep applying `f`,
dropping `none` results, until `limit` values have been produced. -/
def collectUpTo (f : α → Option β) : Nat → List α → List β
  | _, [] => []
  | limit, x :: xs =>
    if limit == 0 then []
    else
      match f x with
      | some c => c :: collectUpTo f (limit - 1) xs
      | none => collectUpTo f limit xs

/-- One settled outcome of `Promise.allSettled` over the adapter promises. -/
inductive SettledResult where
  | fulfilled (value : List LicensedCandidate)
  | rejected
deriving DecidableEq

/-- The required-field validation of `harvestCandidates`:
`!candidate.id || !candidate.u || !candidate.k || !candidate.ttl ||
!candidate.src || !candidate.lic`. -/
def malformedCandidate (c : LicensedCandidate) : Bool :=
  c.id == "" || c.u == "" || c.k == "" || c.ttl == "" || c.src == "" || c.lic == ""

/-- The per-candidate loop body of `harvestCandidates`: drop candidates
with `safe == false`, drop malformed candidates, then route to the link
bucket when `kind == link` or the license is not render-allowed, and to
the image bucket otherwise. -/
def partitionCandidates :
    List LicensedCandidate → List LicensedCandidate × List LicensedCandidate
  | [] => ([], [])
  | c :: rest =>
    let p := partitionCandidates rest
    if !c.safe then p
    else if malformedCandidate c then p
    else if c.k == "link" || !(RENDER_ALLOWED_LICENSES.contains c.lic) then (p.1, c :: p.2)
    else (c :: p.1, p.2)

/-- Concatenation of the candidate lists of all fulfilled results, in
order; rejected results contribute nothing. -/
def settledCandidates : List SettledResult → List LicensedCandidate
  | [] => []
  | SettledResult.fulfilled value :: rest => value ++ settledCandidates rest
  | SettledResult.rejected :: rest => settledCandidates rest

/-- The tail of `harvestCandidates` after the parallel fan-out: filter and
partition all settled results, shuffle each bucket, and truncate to
`limit * 2` images and `limit` links. -/
def harvestFromResults (results : List SettledResult) (limit : Nat)
    (randImg randLnk : Nat → Nat) :
    List LicensedCandidate × List LicensedCandidate :=
  let p := partitionCandidates (settledCandidates results)
  ((shuffle randImg p.1).take (limit * 2), (shuffle randLnk p.2).take limit)

/-- The settled outcome each adapter produces for a given requested count;
this abstracts the adapters' HTTP I/O for the orchestrator model. -/
structure AdapterEnv where
  nasaAPOD : Nat → SettledResult
  nasaEPIC : Nat → SettledResult
  metMuseum : Nat → SettledResult
  artInstituteChicago : Nat → SettledResult
  smithsonian : Nat → SettledResult
  europeana : Nat → SettledResult
  wikimediaCommons : Nat → SettledResult
  unsplash : Nat → SettledResult
  hackerNews : Nat → SettledResult

/-- The surface-to-fetcher mapping of `harvestCandidates`; `(limit + 1) / 2`
is `Math.ceil(limit / 2)` for the NASA EPIC call. -/
def selectFetchers (env : AdapterEnv) (surfaces : List String) (limit : Nat) :
    List SettledResult :=
  (if surfaces.contains "space" || surfaces.contains "all" then
    [env.nasaAPOD limit, env.nasaEPIC ((limit + 1) / 2)] else [])
  ++ (if surfaces.contains "art" || surfaces.contains "all" then
    [env.metMuseum limit, env.artInstituteChicago limit] else [])
  ++ (if surfaces.contains "culture" || surfaces.contains "all" then
    [env.smithsonian limit, env.europeana limit, env.wikimediaCommons limit] else [])
  ++ (if surfaces.contains "photo" || surfaces.contains "all" then
    [env.unsplash limit] else [])
  ++ (if surfaces.contains "tech" || surfaces.contains "all" then
    [env.hackerNews limit] else [])

/-- `harvestCandidates(surfaces, limit)`: select fetchers by surface, await
all settled outcomes, then filter, partition, shuffle and truncate. -/
def harvestCandidates (env : AdapterEnv) (surfaces : List String) (limit : Nat)
    (randImg randLnk : Nat → Nat) :
    List LicensedCandidate × List LicensedCandidate :=
  harvestFromResults (selectFetchers env surfaces limit) limit randImg randLnk

/-- One parsed NASA APOD response item. -/
structure APODItem where
  date : String
  url : String
  title : String
  explanation : String
  copyright : String
  media_type : String

/-- The candidate `fetchNASAAPOD` pushes for one non-video item. -/
def apodCandidate (item : APODItem) : LicensedCandidate where
  id := "nasa:apod:" ++ item.date
  u := item.url
  k := "space"
  ttl := truncate item.title 50
  desc := truncate item.explanation 100
  src := "NASA APOD"
  lic := License.NASA_PD
  att := if item.copyright != "" then "© " ++ item.copyright ++ " — NASA APOD"
         else "NASA/Public Domain"
  link := "https://apod.nasa.gov/apod/ap" ++ (⟨(jsReplaceAll item.date "-" "").toList.drop 2⟩ : String) ++ ".html"
  safe := basicSafetyCheck (item.title ++ " " ++ item.explanation)

/-- `fetchNASAAPOD(limit)` applied to the parsed item array: take the
first `limit` items and skip videos. -/
def fetchNASAAPOD (limit : Nat) (items : List APODItem) : List LicensedCandidate :=
  (items.take limit).filterMap fun item =>
    if item.media_type == "video" then none else some (apodCandidate item)

/-- One parsed NASA EPIC response item. -/
structure EPICItem where
  identifier : String
  date : String
  image : String
  caption : String

/-- The candidate `fetchNASAEPIC` pushes for one item. -/
def epicCandidate (item : EPICItem) : LicensedCandidate where
  id := "nasa:epic:" ++ item.identifier
  u := "https://epic.gsfc.nasa.gov/archive/natural/" ++
    (jsReplaceAll (splitFirst item.date ' ') "-" "/") ++ "/png/" ++ item.image ++ ".png"
  k := "earth"
  ttl := truncate (if item.caption != "" then item.caption else "Earth from DSCOVR") 50
  desc := "Earth as seen from deep space"
  src := "NASA EPIC"
  lic := License.NASA_PD
  att := "NASA/DSCOVR EPIC"
  link := "https://epic.gsfc.nasa.gov/"
  safe := true

/-- `fetchNASAEPIC(limit)` applied to the parsed response array. -/
def fetchNASAEPIC (limit : Nat) (items : List EPICItem) : List LicensedCandidate :=
  (items.take limit).map epicCandidate

/-- One parsed Met Museum object response. -/
structure MetObject where
  objectID : Nat
  isPublicDomain : Bool
  primaryImageSmall : String
  title : String
  artistDisplayName : String
  objectDate : String
  objectURL : String

/-- The per-object body of `fetchMetMuseum`: require the public-domain
flag and a primary image. -/
def metCandidate? (obj : MetObject) : Option LicensedCandidate :=
  if !obj.isPublicDomain || obj.primaryImageSmall == "" then none
  else some
    { id := "met:" ++ toString obj.objectID
      u := obj.primaryImageSmall
      k := "art"
      ttl := truncate obj.title 50
      desc := truncate
        ((if obj.artistDisplayName != "" then obj.artistDisplayName else "Unknown") ++
          ", " ++ obj.objectDate) 80
      src := "The Met Museum"
      lic := License.CC0
      att := ""
      link := obj.objectURL
      safe := basicSafetyCheck obj.title }

/-- `fetchMetMuseum(limit)` applied to the per-id lookup outcomes for the
first `limit * 3` search hits (`none` models a failed per-object fetch);
the loop stops once `limit` candidates are collected. -/
def fetchMetMuseum (limit : Nat) (objects : List (Option MetObject)) :
    List LicensedCandidate :=
  collectUpTo (fun o => o.bind metCandidate?) limit (objects.take (limit * 3))

/-- One parsed Art Institute of Chicago artwork. -/
structure ArticArtwork where
  id : Nat
  title : String
  image_id : String
  artist_title : String
  date_display : String
  is_public_domain : Bool

/-- The per-artwork body of `fetchArtInstituteChicago`. -/
def articCandidate? (iiifBase : String) (artwork : ArticArtwork) :
    Option LicensedCandidate :=
  if artwork.image_id == "" || !artwork.is_public_domain then none
  else some
    { id := "artic:" ++ toString artwork.id
      u := iiifBase ++ "/" ++ artwork.image_id ++ "/full/843,/0/default.jpg"
      k := "art"
      ttl := truncate artwork.title 50
      desc := truncate
        ((if artwork.artist_title != "" then artwork.artist_title else "Unknown") ++
          ", " ++ artwork.date_display) 80
      src := "Art Institute Chicago"
      lic := License.CC0
      att := ""
      link := "https://www.artic.edu/artworks/" ++ toString artwork.id
      safe := basicSafetyCheck artwork.title }

/-- `fetchArtInstituteChicago(limit)` applied to the parsed response
(`iiif_url` empty models a response without `config.iiif_url`). -/
def fetchArtInstituteChicago (iiif_url : String) (artworks : List ArticArtwork) :
    List LicensedCandidate :=
  let iiifBase := if iiif_url != "" then iiif_url else "https://www.artic.edu/iiif/2"
  artworks.filterMap (articCandidate? iiifBase)

/-- One parsed Smithsonian search row. -/
structure SmithsonianRow where
  id : String
  hasContent : Bool
  mediaContent : String
  title : String
  note : String
  guid : String

/-- The per-row body of `fetchSmithsonian`: require `row.content` and a
first online-media entry with a `content` URL. -/
def smithsonianCandidate? (row : SmithsonianRow) : Option LicensedCandidate :=
  if !row.hasContent then none
  else if row.mediaContent == "" then none
  else some
    { id := "smithsonian:" ++ row.id
      u := row.mediaContent
      k := "culture"
      ttl := truncate (if row.title != "" then row.title else "Smithsonian Item") 50
      desc := truncate row.note 80
      src := "Smithsonian"
      lic := License.CC0
      att := ""
      link := if row.guid != "" then row.guid else "https://www.si.edu/openaccess"
      safe := basicSafetyCheck row.title }

/-- `fetchSmithsonian(limit)`: an unconfigured API key short-circuits to
an empty list before any network access. -/
def fetchSmithsonian (apiKey : String) (rows : List SmithsonianRow) :
    List LicensedCandidate :=
  if apiKey == "" then [] else rows.filterMap smithsonianCandidate?

/-- One parsed Europeana search item. -/
structure EuropeanaItem where
  id : String
  edmPreview : String
  rights : String
  title : String
  dcDescription : String
  dcCreator : String
  guid : String

/-- The per-item body of `fetchEuropeana`: require a preview image and a
rights statement that classifies as neither `UNKNOWN` nor `NOT_ALLOWED`. -/
def europeanaCandidate? (item : EuropeanaItem) : Option LicensedCandidate :=
  if item.edmPreview == "" then none
  else
    let license := parseEuropeanaRights item.rights
    if license == License.UNKNOWN || license == License.NOT_ALLOWED then none
    else some
      { id := "europeana:" ++ item.id
        u := item.edmPreview
        k := "culture"
        ttl := truncate (if item.title != "" then item.title else "Europeana Item") 50
        desc := truncate item.dcDescription 80
        src := "Europeana"
        lic := license
        att := if license == License.CCBY || license == License.CCBYSA then
            (if item.dcCreator != "" then item.dcCreator else "Unknown") ++ " — " ++
              rightsToString license
          else ""
        link := if item.guid != "" then item.guid
          else "https://www.europeana.eu/item" ++ item.id
        safe := basicSafetyCheck (item.title ++ " " ++ item.dcDescription) }

/-- `fetchEuropeana(limit)`: missing API key short-circuits; otherwise the
loop stops once `limit` candidates are collected. -/
def fetchEuropeana (apiKey : String) (limit : Nat) (items : List EuropeanaItem) :
    List LicensedCandidate :=
  if apiKey == "" then [] else collectUpTo europeanaCandidate? limit items

/-- One parsed Unsplash photo. -/
structure UnsplashPhoto where
  id : String
  description : String
  alt_description : String
  urlRegular : String
  urlSmall : String
  userName : String
  linksHtml : String

/-- The per-photo body of `fetchUnsplash`: require a regular or small URL. -/
def unsplashCandidate? (photo : UnsplashPhoto) : Option LicensedCandidate :=
  let imageUrl := if photo.urlRegular != "" then photo.urlRegular else photo.urlSmall
  if imageUrl == "" then none
  else some
    { id := "unsplash:" ++ photo.id
      u := imageUrl
      k := "photo"
      ttl := truncate
        (if photo.description != "" then photo.description
         else if photo.alt_description != "" then photo.alt_description
         else "Unsplash Photo") 50
      desc := truncate
        ("Photo by " ++ (if photo.userName != "" then photo.userName else "Unknown")) 60
      src := "Unsplash"
      lic := License.CC0
      att := "Photo by " ++ (if photo.userName != "" then photo.userName else "Unknown") ++
        " on Unsplash"
      link := if photo.linksHtml != "" then photo.linksHtml
        else "https://unsplash.com/photos/" ++ photo.id
      safe := basicSafetyCheck (photo.description ++ " " ++ photo.alt_description) }

/-- `fetchUnsplash(limit, query)`: missing access key short-circuits. -/
def fetchUnsplash (accessKey : String) (photos : List UnsplashPhoto) :
    List LicensedCandidate :=
  if accessKey == "" then [] else photos.filterMap unsplashCandidate?

/-- One parsed Hacker News item. -/
structure HNStory where
  id : Nat
  type : String
  url : String
  title : String
  score : Nat
  descendants : Nat

/-- The per-story body of `fetchHackerNews`: only stories with a URL are
kept; the candidate is a link card with an empty display URL and an
`UNKNOWN` license. -/
def hnCandidate? (story : HNStory) : Option LicensedCandidate :=
  if story.type != "story" || story.url == "" then none
  else some
    { id := "hn:" ++ toString story.id
      u := ""
      k := "link"
      ttl := truncate story.title 60
      desc := truncate
        (toString story.score ++ " points · " ++ toString story.descendants ++ " comments") 40
      src := "Hacker News"
      lic := License.UNKNOWN
      att := ""
      link := story.url
      safe := basicSafetyCheck story.title }

/-- `fetchHackerNews(limit)` applied to the per-id fetch outcomes for the
first `limit` top-story ids (`none` models a failed or null item fetch). -/
def fetchHackerNews (limit : Nat) (stories : List (Option HNStory)) :
    List LicensedCandidate :=
  (stories.take limit).filterMap fun s => s.bind hnCandidate?

/-- The `imageinfo[0]` payload of one Wikimedia Commons page. -/
structure WCImageInfo where
  thumburl : String
  url : String
  licenseShortName : String
  artistValue : String
  imageDescription : String
  descriptionurl : String

/-- One Wikimedia Commons page from the category query. -/
structure WCPage where
  pageid : Nat
  title : String
  imageinfo : Option WCImageInfo

/-- The per-page body of `fetchWikimediaCommons`: require image info and a
license that classifies into the render-allowed set. -/
def wikimediaCandidate? (page : WCPage) : Option LicensedCandidate :=
  match page.imageinfo with
  | none => none
  | some info =>
    let license := parseWikimediaLicense info.licenseShortName
    if !(RENDER_ALLOWED_LICENSES.contains license) then none
    else
      let artist := if stripTagsStr info.artistValue != "" then stripTagsStr info.artistValue
        else "Unknown"
      some
        { id := "wc:" ++ toString page.pageid
          u := if info.thumburl != "" then info.thumburl else info.url
          k := "photo"
          ttl := truncate (removeExt (replaceFirst page.title "File:" "")) 50
          desc := truncate (stripTagsStr info.imageDescription) 80
          src := "Wikimedia Commons"
          lic := license
          att := if ATTRIBUTION_REQUIRED.contains license then
              truncate artist 40 ++ " — " ++ rightsToString license
            else ""
          link := if info.descriptionurl != "" then info.descriptionurl
            else "https://commons.wikimedia.org/wiki/" ++ encodeURIComponent page.title
          safe := basicSafetyCheck (page.title ++ " " ++ info.imageDescription) }

/-- `fetchWikimediaCommons(limit, category)` applied to the parsed pages;
the loop stops once `limit` candidates are collected. -/
def fetchWikimediaCommons (limit : Nat) (pages : List WCPage) :
    List LicensedCandidate :=
  collectUpTo wikimediaCandidate? limit pages

/-! Helper lemmas. -/

theorem string_eq_empty_of_length {s : String} (h : s.length = 0) : s = "" :=
  String.ext (List.eq_nil_of_length_eq_zero h)

theorem append_ne_empty_of_left (a b : String) (ha : a ≠ "") : a ++ b ≠ "" := by
  intro h
  have hlen := congrArg String.length h
  simp only [String.length_append] at hlen
  have h0 : String.length "" = 0 := rfl
  rw [h0] at hlen
  exact ha (string_eq_empty_of_length (by omega))

theorem append_ne_empty_of_right (a b : String) (hb : b ≠ "") : a ++ b ≠ "" := by
  intro h
  have hlen := congrArg String.length h
  simp only [String.length_append] at hlen
  have h0 : String.length "" = 0 := rfl
  rw [h0] at hlen
  exact hb (string_eq_empty_of_length (by omega))

theorem cons_set_perm {t : List α} {k : Nat} {y : α} (h : t[k]? = some y) (x : α) :
    (y :: t.set k x).Perm (x :: t) := by
  induction t generalizing k with
  | nil => simp at h
  | cons b t ih =>
    cases k with
    | zero =>
      simp only [List.getElem?_cons_zero, Option.some.injEq] at h
      subst h
      simpa using List.Perm.swap x b t
    | succ k =>
      simp only [List.getElem?_cons_succ] at h
      simp only [List.set_cons_succ]
      exact (List.Perm.swap b y _).trans (((ih h).cons b).trans (List.Perm.swap x b t))

theorem set_set_swap_perm {l : List α} : ∀ {i j : Nat} {x y : α},
    l[i]? = some x → l[j]? = some y → ((l.set i y).set j x).Perm l := by
  induction l with
  | nil => intro i j x y hi _; simp at hi
  | cons a t ih =>
    intro i j x y hi hj
    cases i with
    | zero =>
      simp only [List.getElem?_cons_zero, Option.some.injEq] at hi
      subst hi
      cases j with
      | zero =>
        simp only [List.getElem?_cons_zero, Option.some.injEq] at hj
        subst hj
        simp
      | succ k =>
        simp only [List.getElem?_cons_succ] at hj
        simp only [List.set_cons_zero, List.set_cons_succ]
        exact cons_set_perm hj _
    | succ m =>
      simp only [List.getElem?_cons_succ] at hi
      cases j with
      | zero =>
        simp only [List.getElem?_cons_zero, Option.some.injEq] at hj
        subst hj
        simp only [List.set_cons_succ, List.set_cons_zero]
        exact cons_set_perm hi _
      | succ k =>
        simp only [List.getElem?_cons_succ] at hj
        simp only [List.set_cons_succ]
        exact (ih hi hj).cons a

theorem listSwap_perm (l : List α) (i j : Nat) : (listSwap l i j).Perm l := by
  unfold listSwap
  split
  · next hi hj => exact set_set_swap_perm hi hj
  · exact List.Perm.refl _

theorem shuffleGo_perm (rand : Nat → Nat) : ∀ (n : Nat) (l : List α),
    (shuffleGo rand n l).Perm l := by
  intro n
  induction n with
  | zero => intro l; exact List.Perm.refl _
  | succ i ih =>
    intro l
    exact (ih _).trans (listSwap_perm l (i + 1) (rand (i + 1) % (i + 2)))

theorem shuffle_perm_aux (rand : Nat → Nat) (array : List α) :
    (shuffle rand array).Perm array :=
  shuffleGo_perm rand (array.length - 1) array

/-- Claim C9: for every input list and every sequence of random draws,
`shuffle` returns a permutation of its input — same length and same
multiset of elements (`List.Perm` is exactly multiset equality). -/
theorem shuffle_permutation (rand : Nat → Nat) (array : List α) :
    (shuffle rand array).length = array.length ∧ (shuffle rand array).Perm array :=
  ⟨(shuffle_perm_aux rand array).length_eq, shuffle_perm_aux rand array⟩

theorem mem_partition_fst : ∀ {l : List LicensedCandidate} {c : LicensedCandidate},
    c ∈ (partitionCandidates l).1 →
    c ∈ l ∧ c.safe = true ∧ malformedCandidate c = false ∧
      c.k ≠ "link" ∧ c.lic ∈ RENDER_ALLOWED_LICENSES := by
  intro l
  induction l with
  | nil => intro c h; simp [partitionCandidates] at h
  | cons a t ih =>
    intro c h
    simp only [partitionCandidates] at h
    split at h
    · have r := ih h
      exact ⟨List.mem_cons_of_mem a r.1, r.2⟩
    · split at h
      · have r := ih h
        exact ⟨List.mem_cons_of_mem a r.1, r.2⟩
      · split at h
        · have r := ih h
          exact ⟨List.mem_cons_of_mem a r.1, r.2⟩
        · rcases List.mem_cons.mp h with rfl | hmem
          · rename_i hsafe hmal hcond
            have hsafe2 : c.safe = true := by simpa using hsafe
            have hmal2 : malformedCandidate c = false := by simpa using hmal
            have hcond2 : ¬(c.k = "link") ∧ c.lic ∈ RENDER_ALLOWED_LICENSES := by
              simpa [not_or] using hcond
            exact ⟨List.mem_cons_self _ _, hsafe2, hmal2, hcond2.1, hcond2.2⟩
          · have r := ih hmem
            exact ⟨List.mem_cons_of_mem a r.1, r.2⟩

theorem mem_partition_snd : ∀ {l : List LicensedCandidate} {c : LicensedCandidate},
    c ∈ (partitionCandidates l).2 →
    c ∈ l ∧ c.safe = true ∧ malformedCandidate c = false ∧
      (c.k = "link" ∨ c.lic ∉ RENDER_ALLOWED_LICENSES) := by
  intro l
  induction l with
  | nil => intro c h; simp [partitionCandidates] at h
  | cons a t ih =>
    intro c h
    simp only [partitionCandidates] at h
    split at h
    · have r := ih h
      exact ⟨List.mem_cons_of_mem a r.1, r.2⟩
    · split at h
      · have r := ih h
        exact ⟨List.mem_cons_of_mem a r.1, r.2⟩
      · split at h
        · rcases List.mem_cons.mp h with rfl | hmem
          · rename_i hsafe hmal hcond
            have hsafe2 : c.safe = true := by simpa using hsafe
            have hmal2 : malformedCandidate c = false := by simpa using hmal
            have hcond2 : c.k = "link" ∨ c.lic ∉ RENDER_ALLOWED_LICENSES := by
              simpa using hcond
            exact ⟨List.mem_cons_self _ _, hsafe2, hmal2, hcond2⟩
          · have r := ih hmem
            exact ⟨List.mem_cons_of_mem a r.1, r.2⟩
        · have r := ih h
          exact ⟨List.mem_cons_of_mem a r.1, r.2⟩

theorem mem_harvest_fst {env : AdapterEnv} {surfaces : List String} {limit : Nat}
    {randImg randLnk : Nat → Nat} {c : LicensedCandidate}
    (h : c ∈ (harvestCandidates env surfaces limit randImg randLnk).1) :
    c ∈ (partitionCandidates (settledCandidates (selectFetchers env surfaces limit))).1 := by
  have h1 := List.mem_of_mem_take h
  exact ((shuffle_perm_aux randImg _).mem_iff).mp h1

theorem mem_harvest_snd {env : AdapterEnv} {surfaces : List String} {limit : Nat}
    {randImg randLnk : Nat → Nat} {c : LicensedCandidate}
    (h : c ∈ (harvestCandidates env surfaces limit randImg randLnk).2) :
    c ∈ (partitionCandidates (settledCandidates (selectFetchers env surfaces limit))).2 := by
  have h1 := List.mem_of_mem_take h
  exact ((shuffle_perm_aux randLnk _).mem_iff).mp h1

/-- Claim C1: in every call to `harvestCandidates`, every candidate in the
images bucket (`img`) has kind not equal to `link` and a render-allowed
license, and every candidate in the links bucket (`lnk`) has kind `link`
or a license outside the render-allowed set. -/
theorem harvest_buckets_partition (env : AdapterEnv) (surfaces : List String)
    (limit : Nat) (randImg randLnk : Nat → Nat) :
    (∀ c ∈ (harvestCandidates env surfaces limit randImg randLnk).1,
      c.k ≠ "link" ∧ c.lic ∈ RENDER_ALLOWED_LICENSES) ∧
    (∀ c ∈ (harvestCandidates env surfaces limit randImg randLnk).2,
      c.k = "link" ∨ c.lic ∉ RENDER_ALLOWED_LICENSES) := by
  constructor
  · intro c hc
    have r := mem_partition_fst (mem_harvest_fst hc)
    exact ⟨r.2.2.2.1, r.2.2.2.2⟩
  · intro c hc
    have r := mem_partition_snd (mem_harvest_snd hc)
    exact r.2.2.2

/-- Claim C5: every candidate in either output bucket of
`harvestCandidates` has `safe == true` and non-empty `id`, `u`, `k`,
`ttl`, `src` and `lic`; candidates failing these checks never appear. -/
theorem harvest_buckets_validated (env : AdapterEnv) (surfaces : List String)
    (limit : Nat) (randImg randLnk : Nat → Nat) :
    ∀ c : LicensedCandidate,
      c ∈ (harvestCandidates env surfaces limit randImg randLnk).1 ∨
        c ∈ (harvestCandidates env surfaces limit randImg randLnk).2 →
      c.safe = true ∧ c.id ≠ "" ∧ c.u ≠ "" ∧ c.k ≠ "" ∧ c.ttl ≠ "" ∧
        c.src ≠ "" ∧ c.lic ≠ "" := by
  intro c hc
  have hm : c.safe = true ∧ malformedCandidate c = false := by
    rcases hc with h | h
    · have r := mem_partition_fst (mem_harvest_fst h)
      exact ⟨r.2.1, r.2.2.1⟩
    · have r := mem_partition_snd (mem_harvest_snd h)
      exact ⟨r.2.1, r.2.2.1⟩
  have hfields := hm.2
  simp only [malformedCandidate, Bool.or_eq_false_iff, beq_eq_false_iff_ne] at hfields
  refine ⟨hm.1, ?_, ?_, ?_, ?_, ?_, ?_⟩ <;> tauto

/-- Claim C2: for every call to `harvestCandidates` (any limit, surfaces,
adapter results and random draws), the images bucket has at most
`limit * 2` entries and the links bucket at most `limit`. -/
theorem harvest_buckets_bounded (env : AdapterEnv) (surfaces : List String)
    (limit : Nat) (randImg randLnk : Nat → Nat) :
    (harvestCandidates env surfaces limit randImg randLnk).1.length ≤ limit * 2 ∧
    (harvestCandidates env surfaces limit randImg randLnk).2.length ≤ limit := by
  constructor
  · simp only [harvestCandidates, harvestFromResults, List.length_take]
    exact Nat.min_le_left _ _
  · simp only [harvestCandidates, harvestFromResults, List.length_take]
    exact Nat.min_le_left _ _

theorem settledCandidates_append (a b : List SettledResult) :
    settledCandidates (a ++ b) = settledCandidates a ++ settledCandidates b := by
  induction a with
  | nil => simp [settledCandidates]
  | cons x t ih => cases x <;> simp [settledCandidates, ih]

/-- Claim C7: a rejected (failed) adapter promise anywhere among the
settled results leaves the output of the harvest exactly as if that
adapter had not been invoked — every other adapter's contribution is
unaffected and the call still returns normally. -/
theorem harvest_rejected_isolated (pre post : List SettledResult) (limit : Nat)
    (randImg randLnk : Nat → Nat) :
    harvestFromResults (pre ++ SettledResult.rejected :: post) limit randImg randLnk =
      harvestFromResults (pre ++ post) limit randImg randLnk := by
  have hsc : settledCandidates (pre ++ SettledResult.rejected :: post) =
      settledCandidates (pre ++ post) := by
    rw [settledCandidates_append, settledCandidates_append]
    rfl
  simp only [harvestFromResults, hsc]

/-- An environment whose adapters all succeed with no candidates. -/
def trivialEnv : AdapterEnv where
  nasaAPOD := fun _ => SettledResult.fulfilled []
  nasaEPIC := fun _ => SettledResult.fulfilled []
  metMuseum := fun _ => SettledResult.fulfilled []
  artInstituteChicago := fun _ => SettledResult.fulfilled []
  smithsonian := fun _ => SettledResult.fulfilled []
  europeana := fun _ => SettledResult.fulfilled []
  wikimediaCommons := fun _ => SettledResult.fulfilled []
  unsplash := fun _ => SettledResult.fulfilled []
  hackerNews := fun _ => SettledResult.fulfilled []

/-- Claim C4 counterexample: `harvestCandidates` performs no validation of
`limit` or `surfaces`; with an empty surfaces set and `limit = 0` it does
not fail — it returns the ordinary (empty) result envelope. -/
theorem harvest_no_validation_counterexample :
    harvestCandidates trivialEnv [] 0 (fun _ => 0) (fun _ => 0) = ([], []) := rfl

/-- Claim C4 as amended: calling `harvestCandidates` with an empty
surfaces set or with `limit = 0` does not produce an error; it returns
successfully with empty buckets (for any adapter environment and random
draws). -/
theorem harvest_no_validation (env : AdapterEnv) :
    (∀ (limit : Nat) (randImg randLnk : Nat → Nat),
      harvestCandidates env [] limit randImg randLnk = ([], [])) ∧
    (∀ (surfaces : List String) (randImg randLnk : Nat → Nat),
      harvestCandidates env surfaces 0 randImg randLnk = ([], [])) := by
  constructor
  · intro limit randImg randLnk
    simp [harvestCandidates, harvestFromResults, selectFetchers, settledCandidates,
      partitionCandidates, shuffle, shuffleGo]
  · intro surfaces randImg randLnk
    simp [harvestCandidates, harvestFromResults]

/-- One valid link candidate as the discussion-site adapter shape: kind
`link`, empty display URL, `UNKNOWN` license, safe, non-empty
id/title/source. -/
def hnStoryCandidate (n : Nat) : LicensedCandidate where
  id := "hn:" ++ toString n
  u := ""
  k := "link"
  ttl := "Story " ++ toString n
  desc := "100 points · 20 comments"
  src := "Hacker News"
  lic := License.UNKNOWN
  att := ""
  link := "https://example.com/" ++ toString n
  safe := true

/-- Adapter environment in which the Hacker News adapter returns five
valid link candidates and every other adapter returns nothing. -/
def hnMockEnv : AdapterEnv :=
  { trivialEnv with
    hackerNews := fun _ => SettledResult.fulfilled
      [hnStoryCandidate 1, hnStoryCandidate 2, hnStoryCandidate 3,
       hnStoryCandidate 4, hnStoryCandidate 5] }

/-- Claim C3 (code-bug evidence): with surfaces `{tech}` and limit 5,
when the Hacker News adapter fulfills with 5 valid link candidates (kind
`link`, empty url, license `UNKNOWN`, safe, non-empty id/title/source),
`harvestCandidates` returns an empty links bucket (and empty images
bucket) instead of the 5 links the claim expects: the required-field
validation rejects every candidate whose `u` is empty, and link
candidates always have an empty `u`. -/
theorem harvest_tech_links_dropped :
    ([hnStoryCandidate 1, hnStoryCandidate 2, hnStoryCandidate 3,
      hnStoryCandidate 4, hnStoryCandidate 5].all fun c =>
        c.k == "link" && c.u == "" && c.lic == License.UNKNOWN && c.safe &&
          c.id != "" && c.ttl != "" && c.src != "") = true ∧
    hnMockEnv.hackerNews 5 = SettledResult.fulfilled
      [hnStoryCandidate 1, hnStoryCandidate 2, hnStoryCandidate 3,
       hnStoryCandidate 4, hnStoryCandidate 5] ∧
    harvestCandidates hnMockEnv ["tech"] 5 (fun _ => 0) (fun _ => 0) = ([], []) := by
  refine ⟨by decide, rfl, by decide⟩

/-- One well-formed image candidate (NASA APOD shape). -/
def imgCand : LicensedCandidate where
  id := "nasa:apod:2024-01-01"
  u := "https://img.example/apod.jpg"
  k := "space"
  ttl := "A Nebula"
  desc := "A colorful nebula"
  src := "NASA APOD"
  lic := License.NASA_PD
  att := "NASA/Public Domain"
  link := "https://apod.nasa.gov/apod/ap240101.html"
  safe := true

/-- One well-formed candidate that lands in the links bucket (kind `link`
with a non-empty display URL, so it survives validation). -/
def lnkCand : LicensedCandidate where
  id := "hn:42"
  u := "https://news.example/42"
  k := "link"
  ttl := "A Story"
  desc := "10 points · 3 comments"
  src := "Hacker News"
  lic := License.UNKNOWN
  att := ""
  link := "https://news.example/42"
  safe := true

/-- Environment contributing one image candidate and one link candidate. -/
def witnessEnv : AdapterEnv :=
  { trivialEnv with
    nasaAPOD := fun _ => SettledResult.fulfilled [imgCand]
    hackerNews := fun _ => SettledResult.fulfilled [lnkCand] }

theorem harvest_buckets_partition_witness :
    (imgCand.k ≠ "link" ∧ imgCand.lic ∈ RENDER_ALLOWED_LICENSES) ∧
    (lnkCand.k = "link" ∨ lnkCand.lic ∉ RENDER_ALLOWED_LICENSES) := by
  have H := harvest_buckets_partition witnessEnv ["space", "tech"] 1
    (fun _ => 0) (fun _ => 0)
  exact ⟨H.1 imgCand (by decide), H.2 lnkCand (by decide)⟩

theorem harvest_buckets_validated_witness :
    imgCand.safe = true ∧ imgCand.id ≠ "" ∧ imgCand.u ≠ "" ∧ imgCand.k ≠ "" ∧
      imgCand.ttl ≠ "" ∧ imgCand.src ≠ "" ∧ imgCand.lic ≠ "" :=
  harvest_buckets_validated witnessEnv ["space", "tech"] 1 (fun _ => 0) (fun _ => 0)
    imgCand (Or.inl (by decide))

/-- Claim C8: the Wikimedia license classifier maps `"Public Domain Mark"`
to `CC0` and `"CC BY-SA 4.0"` to `CCBYSA`, and `CCBYSA` requires
attribution. -/
theorem wikimedia_license_scenarios :
    parseWikimediaLicense "Public Domain Mark" = License.CC0 ∧
    parseWikimediaLicense "CC BY-SA 4.0" = License.CCBYSA ∧
    License.CCBYSA ∈ ATTRIBUTION_REQUIRED := by
  refine ⟨by decide, by decide, by decide⟩

/-- Claim C10: `parseWikimediaLicense` only ever returns `CC0`, `CCBYSA`,
`CCBY` or `UNKNOWN` — never `NOT_ALLOWED`, `PD` or `NASA_PD` — so an
explicitly all-rights-reserved rights string classifies to `UNKNOWN`. -/
theorem parseWikimediaLicense_range :
    (∀ s : String, parseWikimediaLicense s = License.CC0 ∨
      parseWikimediaLicense s = License.CCBYSA ∨
      parseWikimediaLicense s = License.CCBY ∨
      parseWikimediaLicense s = License.UNKNOWN) ∧
    parseWikimediaLicense "All rights reserved" = License.UNKNOWN := by
  constructor
  · intro s
    simp only [parseWikimediaLicense]
    repeat' split
    all_goals decide
  · decide

theorem parseEuropeanaRights_cases (s : String) :
    parseEuropeanaRights s = License.CC0 ∨ parseEuropeanaRights s = License.CCBYSA ∨
    parseEuropeanaRights s = License.CCBY ∨ parseEuropeanaRights s = License.NOT_ALLOWED ∨
    parseEuropeanaRights s = License.UNKNOWN := by
  simp only [parseEuropeanaRights]
  repeat' split
  all_goals decide

theorem mem_collectUpTo {f : α → Option β} : ∀ {n : Nat} {l : List α} {c : β},
    c ∈ collectUpTo f n l → ∃ x ∈ l, f x = some c := by
  intro n l
  induction l generalizing n with
  | nil => intro c h; simp [collectUpTo] at h
  | cons x xs ih =>
    intro c h
    simp only [collectUpTo] at h
    split at h
    · simp at h
    · split at h
      · rename_i heq
        rcases List.mem_cons.mp h with rfl | hmem
        · exact ⟨x, List.mem_cons_self _ _, heq⟩
        · obtain ⟨z, hz, hfz⟩ := ih hmem
          exact ⟨z, List.mem_cons_of_mem _ hz, hfz⟩
      · obtain ⟨z, hz, hfz⟩ := ih h
        exact ⟨z, List.mem_cons_of_mem _ hz, hfz⟩

theorem contains_eq_true_of_mem {l : List String} {s : String} (h : s ∈ l) :
    l.contains s = true :=
  List.elem_iff.mpr h

theorem cc0_not_attribution : License.CC0 ∉ ATTRIBUTION_REQUIRED := by decide

theorem unknown_not_attribution : License.UNKNOWN ∉ ATTRIBUTION_REQUIRED := by decide

/-- Claim C6: every candidate emitted by any adapter whose license is in
the attribution-required set `{CCBY, CCBYSA, NASA_PD}` carries a non-empty
`att` (attribution) string.  One conjunct per adapter, quantified over the
adapter's parsed upstream payload. -/
theorem adapter_attribution_nonempty :
    (∀ (limit : Nat) (items : List APODItem) (c : LicensedCandidate),
      c ∈ fetchNASAAPOD limit items → c.lic ∈ ATTRIBUTION_REQUIRED → c.att ≠ "") ∧
    (∀ (limit : Nat) (items : List EPICItem) (c : LicensedCandidate),
      c ∈ fetchNASAEPIC limit items → c.lic ∈ ATTRIBUTION_REQUIRED → c.att ≠ "") ∧
    (∀ (limit : Nat) (objects : List (Option MetObject)) (c : LicensedCandidate),
      c ∈ fetchMetMuseum limit objects → c.lic ∈ ATTRIBUTION_REQUIRED → c.att ≠ "") ∧
    (∀ (iiif_url : String) (artworks : List ArticArtwork) (c : LicensedCandidate),
      c ∈ fetchArtInstituteChicago iiif_url artworks →
        c.lic ∈ ATTRIBUTION_REQUIRED → c.att ≠ "") ∧
    (∀ (apiKey : String) (rows : List SmithsonianRow) (c : LicensedCandidate),
      c ∈ fetchSmithsonian apiKey rows → c.lic ∈ ATTRIBUTION_REQUIRED → c.att ≠ "") ∧
    (∀ (apiKey : String) (limit : Nat) (items : List EuropeanaItem) (c : LicensedCandidate),
      c ∈ fetchEuropeana apiKey limit items → c.lic ∈ ATTRIBUTION_REQUIRED → c.att ≠ "") ∧
    (∀ (accessKey : String) (photos : List UnsplashPhoto) (c : LicensedCandidate),
      c ∈ fetchUnsplash accessKey photos → c.lic ∈ ATTRIBUTION_REQUIRED → c.att ≠ "") ∧
    (∀ (limit : Nat) (stories : List (Option HNStory)) (c : LicensedCandidate),
      c ∈ fetchHackerNews limit stories → c.lic ∈ ATTRIBUTION_REQUIRED → c.att ≠ "") ∧
    (∀ (limit : Nat) (pages : List WCPage) (c : LicensedCandidate),
      c ∈ fetchWikimediaCommons limit pages → c.lic ∈ ATTRIBUTION_REQUIRED → c.att ≠ "") := by
  refine ⟨?_, ?_, ?_, ?_, ?_, ?_, ?_, ?_, ?_⟩
  · -- NASA APOD: attribution is always non-empty.
    intro limit items c hc _
    simp only [fetchNASAAPOD, List.mem_filterMap] at hc
    obtain ⟨item, _, hsome⟩ := hc
    split at hsome
    · simp at hsome
    · obtain rfl : apodCandidate item = c := by simpa using hsome
      show (if item.copyright != "" then "© " ++ item.copyright ++ " — NASA APOD"
            else "NASA/Public Domain") ≠ ""
      split
      · exact append_ne_empty_of_right _ _ (by decide)
      · decide
  · -- NASA EPIC: attribution is the constant string NASA/DSCOVR EPIC.
    intro limit items c hc _
    simp only [fetchNASAEPIC, List.mem_map] at hc
    obtain ⟨item, _, rfl⟩ := hc
    show ("NASA/DSCOVR EPIC" : String) ≠ ""
    decide
  · -- Met Museum: license is CC0, never attribution-required.
    intro limit objects c hc hlic
    obtain ⟨o, _, hsome⟩ := mem_collectUpTo hc
    cases o with
    | none => exact Option.noConfusion hsome
    | some obj =>
      simp only [Option.some_bind, metCandidate?] at hsome
      split at hsome
      · exact Option.noConfusion hsome
      · obtain rfl := Option.some.inj hsome
        exact absurd hlic cc0_not_attribution
  · -- Art Institute of Chicago: license is CC0, never attribution-required.
    intro iiif_url artworks c hc hlic
    simp only [fetchArtInstituteChicago, List.mem_filterMap, articCandidate?] at hc
    obtain ⟨aw, _, hsome⟩ := hc
    split at hsome
    · exact Option.noConfusion hsome
    · obtain rfl := Option.some.inj hsome
      exact absurd hlic cc0_not_attribution
  · -- Smithsonian: license is CC0, never attribution-required.
    intro apiKey rows c hc hlic
    simp only [fetchSmithsonian] at hc
    split at hc
    · simp at hc
    · simp only [List.mem_filterMap, smithsonianCandidate?] at hc
      obtain ⟨row, _, hsome⟩ := hc
      split at hsome
      · exact Option.noConfusion hsome
      · split at hsome
        · exact Option.noConfusion hsome
        · obtain rfl := Option.some.inj hsome
          exact absurd hlic cc0_not_attribution
  · -- Europeana: attribution-required licenses are CCBY/CCBYSA and then
    -- the attribution string ends with a rights label.
    intro apiKey limit items c hc hlic
    simp only [fetchEuropeana] at hc
    split at hc
    · simp at hc
    · obtain ⟨item, _, hsome⟩ := mem_collectUpTo hc
      simp only [europeanaCandidate?] at hsome
      split at hsome
      · simp at hsome
      · split at hsome
        · simp at hsome
        · obtain rfl := Option.some.inj hsome
          have hmem : parseEuropeanaRights item.rights ∈ ATTRIBUTION_REQUIRED := hlic
          have hL : parseEuropeanaRights item.rights = License.CCBY ∨
              parseEuropeanaRights item.rights = License.CCBYSA := by
            rcases parseEuropeanaRights_cases item.rights with h | h | h | h | h
            · rw [h] at hmem; exact absurd hmem (by decide)
            · exact Or.inr h
            · exact Or.inl h
            · rw [h] at hmem; exact absurd hmem (by decide)
            · rw [h] at hmem; exact absurd hmem (by decide)
          show (if (parseEuropeanaRights item.rights == License.CCBY ||
                    parseEuropeanaRights item.rights == License.CCBYSA) = true then
                  (if item.dcCreator != "" then item.dcCreator else "Unknown") ++ " — " ++
                    rightsToString (parseEuropeanaRights item.rights)
                else "") ≠ ""
          have hcond : (parseEuropeanaRights item.rights == License.CCBY ||
              parseEuropeanaRights item.rights == License.CCBYSA) = true := by
            rcases hL with h | h <;> rw [h] <;> decide
          rw [if_pos hcond]
          exact append_ne_empty_of_left _ _ (append_ne_empty_of_right _ _ (by decide))
  · -- Unsplash: license is CC0, never attribution-required.
    intro accessKey photos c hc hlic
    simp only [fetchUnsplash] at hc
    split at hc
    · simp at hc
    · simp only [List.mem_filterMap] at hc
      obtain ⟨photo, _, hsome⟩ := hc
      simp only [unsplashCandidate?] at hsome
      split at hsome
      · split at hsome
        · exact Option.noConfusion hsome
        · obtain rfl := Option.some.inj hsome
          exact absurd hlic cc0_not_attribution
      · split at hsome
        · exact Option.noConfusion hsome
        · obtain rfl := Option.some.inj hsome
          exact absurd hlic cc0_not_attribution
  · -- Hacker News: license is UNKNOWN, never attribution-required.
    intro limit stories c hc hlic
    simp only [fetchHackerNews, List.mem_filterMap] at hc
    obtain ⟨s, _, hsome⟩ := hc
    cases s with
    | none => exact Option.noConfusion hsome
    | some story =>
      simp only [Option.some_bind, hnCandidate?] at hsome
      split at hsome
      · exact Option.noConfusion hsome
      · obtain rfl := Option.some.inj hsome
        exact absurd hlic unknown_not_attribution
  · -- Wikimedia Commons: the attribution guard is exactly membership in
    -- the attribution-required set.
    intro limit pages c hc hlic
    obtain ⟨page, _, hsome⟩ := mem_collectUpTo hc
    rcases hpi : page.imageinfo with _ | info
    · simp only [wikimediaCandidate?, hpi] at hsome
      exact Option.noConfusion hsome
    · simp only [wikimediaCandidate?, hpi] at hsome
      split at hsome
      · exact Option.noConfusion hsome
      · obtain rfl := Option.some.inj hsome
        have hcond : ATTRIBUTION_REQUIRED.contains
            (parseWikimediaLicense info.licenseShortName) = true :=
          contains_eq_true_of_mem hlic
        show (if ATTRIBUTION_REQUIRED.contains
                (parseWikimediaLicense info.licenseShortName) = true then
                truncate (if stripTagsStr info.artistValue != "" then
                    stripTagsStr info.artistValue else "Unknown") 40 ++ " — " ++
                  rightsToString (parseWikimediaLicense info.licenseShortName)
              else "") ≠ ""
        rw [if_pos hcond]
        exact append_ne_empty_of_left _ _ (append_ne_empty_of_right _ _ (by decide))

/-- One concrete APOD item whose candidate carries the attribution-required
`NASA_PD` license. -/
def apodItemW : APODItem where
  date := "2024-01-01"
  url := "https://apod.nasa.gov/image/2401/nebula.jpg"
  title := "A Nebula"
  explanation := "A colorful nebula in deep space"
  copyright := ""
  media_type := "image"

theorem adapter_attribution_nonempty_witness :
    ∃ c : LicensedCandidate, c ∈ fetchNASAAPOD 5 [apodItemW] ∧
      c.lic ∈ ATTRIBUTION_REQUIRED ∧ c.att ≠ "" :=
  ⟨apodCandidate apodItemW, by decide, by decide,
    adapter_attribution_nonempty.1 5 [apodItemW] (apodCandidate apodItemW)
      (by decide) (by decide)⟩

end WebScout
